import Mathlib

/-!
# Verification of `pjs-rs` (`src/lib.rs`) against its specification

Shallow embedding of the `pjs-rs` wrapper around the polkadot-js browser
extension.  Rust strings are modelled as `List Char` (byte positions are
computed with `Char.utf8Size`, so `str::get` range-slicing semantics,
including its char-boundary checks, are preserved), `u8` values as `Nat`
(all arithmetic here is non-overflowing: parsed bytes are checked against
255 exactly as `u8::from_str_radix` does), JavaScript values as the
inductive `JsVal`, and the asynchronous host interactions (promise
resolution / rejection) as explicit parameters of the embedded functions.
-/

set_option autoImplicit false

namespace Pjs

/-! ## Hex codec (`PjsExtension::to_hex`, `PjsExtension::from_hex`) -/

/-- Rust `char::to_digit(16)`: decimal digits and the letters `a`-`f` /
`A`-`F`. -/
def hexDigitVal? (c : Char) : Option Nat :=
  if '0' ≤ c ∧ c ≤ '9' then some (c.toNat - '0'.toNat)
  else if 'a' ≤ c ∧ c ≤ 'f' then some (c.toNat - 'a'.toNat + 10)
  else if 'A' ≤ c ∧ c ≤ 'F' then some (c.toNat - 'A'.toNat + 10)
  else none

/-- Accumulator loop of `digitsToU8`. -/
def digitsToU8Go (acc : Nat) : List Char → Option Nat
  | [] => some acc
  | c :: rest =>
    match hexDigitVal? c with
    | none => none
    | some d => if acc * 16 + d ≤ 255 then digitsToU8Go (acc * 16 + d) rest else none

/-- Digit run of `u8::from_str_radix(_, 16)` for a non-negative parse:
fails on an empty digit list, a non-digit, or overflow past 255
(`checked_mul`/`checked_add` against `u8`). -/
def digitsToU8 (ds : List Char) : Option Nat :=
  if ds.isEmpty then none else digitsToU8Go 0 ds

/-- `u8::from_str_radix(s, 16)`: optional leading `+`/`-` sign followed by at
least one hex digit; a `-` sign on an unsigned parse only succeeds when the
value is zero (`checked_sub` from 0, so every digit must be `0`). -/
def fromStrRadix16 (s : List Char) : Option Nat :=
  match s with
  | [] => none
  | c :: ds =>
    if c = '+' then digitsToU8 ds
    else if c = '-' then
      if ds.isEmpty then none
      else if ds.all (fun x => x == '0') then some 0 else none
    else digitsToU8 (c :: ds)

/-- Rust `str::get(a..b)` on a string viewed as its list of chars, with `a`,
`b` byte positions: `some` exactly when `a ≤ b ≤ len` and both `a` and `b`
lie on char boundaries, in which case it returns the chars of bytes
`a..b`. -/
def strSlice : List Char → Nat → Nat → Option (List Char)
  | _, 0, 0 => some []
  | [], _, _ => none
  | c :: cs, 0, b =>
    if c.utf8Size ≤ b then (strSlice cs 0 (b - c.utf8Size)).map (c :: ·) else none
  | c :: cs, a, b =>
    if c.utf8Size ≤ a ∧ a ≤ b then strSlice cs (a - c.utf8Size) (b - c.utf8Size) else none

/-- Loop of `PjsExtension::from_hex`, carrying the running byte index `i`:
for each buffer byte, slice the input at byte range `i*2 .. i*2+2`; if the
slice is unavailable return (the rest of the buffer keeps its prior
values), otherwise store `u8::from_str_radix(s, 16).unwrap_or_default()`
and continue. -/
def fromHexGo (input : List Char) : Nat → List Nat → List Nat
  | _, [] => []
  | i, b :: rest =>
    match strSlice input (i * 2) (i * 2 + 2) with
    | none => b :: rest
    | some s => (fromStrRadix16 s).getD 0 :: fromHexGo input (i + 1) rest

/-- `PjsExtension::from_hex(input, buf)`: the final buffer contents. -/
def from_hex (input : List Char) (buf : List Nat) : List Nat :=
  fromHexGo input 0 buf

/-- Hex digit character of `core::fmt::LowerHex` (digits then `a`-`f`). -/
def hexDigitChar (n : Nat) : Char :=
  if n < 10 then Char.ofNat (48 + n) else Char.ofNat (87 + n)

/-- `write!(s, "{b:x}")` for a byte `b`: minimal-width lowercase hex, i.e.
ONE digit when `b < 16` (no zero padding). -/
def byteLowerHex (b : Nat) : List Char :=
  if b < 16 then [hexDigitChar b] else [hexDigitChar (b / 16), hexDigitChar (b % 16)]

/-- `PjsExtension::to_hex`: `"0x"` followed by each byte formatted with
`{b:x}`. -/
def to_hex (bytes : List Nat) : List Char :=
  '0' :: 'x' :: (bytes.map byteLowerHex).flatten

/-! ## JavaScript values and reflection (`wasm_bindgen` / `js_sys`) -/

/-- A JavaScript value, as far as the wrapper observes it: `undefined`,
`null`, a string, an object with (string-keyed) own properties, or a
function.  A function abstracts the whole `call → Promise → await` round
trip of the `enable` entry point: `rejects` tells whether the awaited
promise rejects, `value` is the resolved value otherwise. -/
inductive JsVal where
  | undefined
  | null
  | str (s : String)
  | obj (fields : List (String × JsVal))
  | fn (rejects : Bool) (value : JsVal)

/-- `js_sys::Reflect::get(target, key)`: throws (returns `Err`) when the
target is not an object (undefined, null, or a primitive); on an object it
returns the property value, `undefined` when the key is missing.
Functions are objects; our model gives them no own properties. -/
def reflectGet : JsVal → String → Except Unit JsVal
  | .undefined, _ => .error ()
  | .null, _ => .error ()
  | .str _, _ => .error ()
  | .obj fields, k => .ok ((fields.lookup k).getD .undefined)
  | .fn _ _, _ => .ok .undefined

/-- `JsValue::as_string`: `Some` exactly for JS strings. -/
def jsAsString? : JsVal → Option String
  | .str s => some s
  | _ => none

/-! ## Network classifier (`impl From<JsValue> for Network`) -/

/-- `Network` enum. -/
inductive Network where
  | Generic
  | Kusama
  | Polkadot
  | Kreivo
deriving DecidableEq

/-- Kusama genesis-hash constant `KSM`. -/
def KSM : String := "0xb0a8d493285c2df73290dfb7e61f870f17b41801197a149ca93654499ea3dafe"

/-- Polkadot genesis-hash constant `DOT`. -/
def DOT : String := "0x91b171bb158e2d3848fa23a9f1c25182fb8e20313b2c1eb49219da7a70ce90c3"

/-- Kreivo genesis-hash constant `KREIVO`. -/
def KREIVO : String := "0xc710a5f16adc17bcd212cff0aedcbf1c1212a043cdc0fb2dcba861efe5305b01"

/-- `Network::from(value: JsValue)`: `value.as_string()` matched against the
three constants, everything else `Generic`. -/
def networkOfJs (value : JsVal) : Network :=
  match jsAsString? value with
  | some s =>
    if s = KSM then .Kusama
    else if s = DOT then .Polkadot
    else if s = KREIVO then .Kreivo
    else .Generic
  | none => .Generic

/-! ## Accounts and the session (`PjsExtension`) -/

/-- `Account` struct. -/
structure Account where
  name : String
  address : String
  net : Network
deriving DecidableEq

/-- `Error` enum. -/
inductive Error where
  | ExtensionUnavailable
  | NoPermission
  | FailedFetchingAccounts
  | NoAccountSelected
  | NoAccounts
  | Sign
deriving DecidableEq

/-- `PjsExtension` struct.  `selected: Option<u8>` is modelled as
`Option Nat`; `select_account`'s `u8` argument is modelled as a `Nat`
together with the hypothesis `idx < 256` in the theorems. -/
structure PjsExtension where
  pjs : JsVal
  accounts : List Account
  selected : Option Nat

/-- Outcome of `PjsExtension::connect`: a session, a returned `Error`, or a
Rust panic (the `get!` macro's `unwrap_or_else(|_| panic!(..))`, or
`.expect(..)` on the call result). -/
inductive ConnectResult where
  | ok (s : PjsExtension)
  | err (e : Error)
  | panicked

/-- `PjsExtension::connect(app_name)`.  `injectedWeb3` is
`window.get("injectedWeb3")` (`None` when the global is absent /
undefined).  When present, the code reads property `"polkadot-js"` from it
(an absent key yields `undefined`, it is not an error), then reads
`"enable"` from THAT value — which panics via the `get!` macro when the
value is not an object — then calls `enable` and awaits the returned
promise: rejection gives `NoPermission`, resolution gives the session with
an empty account list and no selection.  Calling a non-function panics at
`.expect("promise")`.  The `app_name` argument only feeds the extension's
permission prompt and does not influence control flow, so it is dropped
here. -/
def connect (injectedWeb3 : Option JsVal) : ConnectResult :=
  match injectedWeb3 with
  | none => .err .ExtensionUnavailable
  | some web3 =>
    match reflectGet web3 "polkadot-js" with
    | .error _ => .panicked
    | .ok pjs =>
      match reflectGet pjs "enable" with
      | .error _ => .panicked
      | .ok (.fn rejects value) =>
        if rejects then .err .NoPermission
        else .ok { pjs := value, accounts := [], selected := none }
      | .ok _ => .panicked

/-- `PjsExtension::current_account` (js name `account`). -/
def current_account (s : PjsExtension) : Except Error Account :=
  match s.selected with
  | none => .error .NoAccountSelected
  | some i =>
    match s.accounts[i]? with
    | none => .error .NoAccounts
    | some a => .ok a

/-- Rust `Nat::checked_sub`: `None` on underflow. -/
def checkedSub (n m : Nat) : Option Nat :=
  if n < m then none else some (n - m)

/-- `PjsExtension::select_account(idx)` (js name `selectAccount`):
`selected = accounts.len().checked_sub(1).map(|i| idx.min(i.min(255)))`. -/
def select_account (s : PjsExtension) (idx : Nat) : PjsExtension :=
  { s with selected := (checkedSub s.accounts.length 1).map fun i => min idx (min i 255) }

/-- The provider's `accounts.get()` promise: rejected, or resolved with a JS
array of account objects. -/
inductive FetchResponse where
  | rejected
  | resolved (arr : List JsVal)

/-- Outcome of `PjsExtension::fetch_accounts` on a given state: `ok`/`err`
carry the post-state (`&mut self` is embedded as state passing);
`panicked` models the `.unwrap()` calls failing while parsing an entry. -/
inductive FetchOutcome where
  | ok (s : PjsExtension)
  | err (e : Error) (s : PjsExtension)
  | panicked

/-- Parsing of one element of the returned array (the closure in
`fetch_accounts`): `get!(&a, "name").as_string().unwrap()`, same for
`"address"`, and `get!(&a, "genesisHash")` classified by the Network
classifier.  `none` models a panic (reflection error or a non-string
name/address). -/
def parseAccount? (a : JsVal) : Option Account :=
  match reflectGet a "name", reflectGet a "address", reflectGet a "genesisHash" with
  | .ok n, .ok ad, .ok gh =>
    match jsAsString? n, jsAsString? ad with
    | some name, some address => some { name := name, address := address, net := networkOfJs gh }
    | _, _ => none
  | _, _, _ => none

/-- The `.iter().map(..).collect()` over the returned array: parses every
element in order, `none` (a panic) as soon as one element fails to
parse. -/
def parseAccounts? : List JsVal → Option (List Account)
  | [] => some []
  | a :: rest =>
    match parseAccount? a, parseAccounts? rest with
    | some acc, some accs => some (acc :: accs)
    | _, _ => none

/-- `PjsExtension::fetch_accounts` (js name `fetchAccounts`): a rejected
promise returns `Err(FailedFetchingAccounts)` before any mutation; on
resolution the account list is replaced by the parsed entries, and
`selected` is set to `Some(0)` only when the new list is non-empty. -/
def fetch_accounts (s : PjsExtension) (resp : FetchResponse) : FetchOutcome :=
  match resp with
  | .rejected => .err .FailedFetchingAccounts s
  | .resolved arr =>
    match parseAccounts? arr with
    | none => .panicked
    | some accs =>
      let s1 : PjsExtension := { s with accounts := accs }
      if s1.accounts.isEmpty then .ok s1 else .ok { s1 with selected := some 0 }

/-! ## Helper lemmas about the `from_hex` loop -/

theorem fromHexGo_length (input : List Char) : ∀ (i : Nat) (buf : List Nat),
    (fromHexGo input i buf).length = buf.length := by
  intro i buf
  induction buf generalizing i with
  | nil => rfl
  | cons b rest ih =>
    cases hs : strSlice input (i * 2) (i * 2 + 2) with
    | none => simp [fromHexGo, hs]
    | some s => simp [fromHexGo, hs, ih]

theorem fromHexGo_drop (input : List Char) : ∀ (buf : List Nat) (i d : Nat),
    strSlice input ((i + d) * 2) ((i + d) * 2 + 2) = none →
    (fromHexGo input i buf).drop d = buf.drop d := by
  intro buf
  induction buf with
  | nil => intro i d _; rfl
  | cons b rest ih =>
    intro i d h
    cases hs : strSlice input (i * 2) (i * 2 + 2) with
    | none => simp [fromHexGo, hs]
    | some s =>
      match d with
      | 0 => rw [Nat.add_zero] at h; rw [h] at hs; exact Option.noConfusion hs
      | d' + 1 =>
        have h' : strSlice input ((i + 1 + d') * 2) ((i + 1 + d') * 2 + 2) = none := by
          have e : i + 1 + d' = i + (d' + 1) := by omega
          rw [e]; exact h
        simp only [fromHexGo, hs, List.drop_succ_cons]
        exact ih (i + 1) d' h'

theorem fromHexGo_getD_decoded (input : List Char) : ∀ (buf : List Nat) (i k : Nat),
    k < buf.length →
    (∀ j, j ≤ k → (strSlice input ((i + j) * 2) ((i + j) * 2 + 2)).isSome) →
    (fromHexGo input i buf).getD k 0 =
      (fromStrRadix16 ((strSlice input ((i + k) * 2) ((i + k) * 2 + 2)).getD [])).getD 0 := by
  intro buf
  induction buf with
  | nil => intro i k hk _; simp at hk
  | cons b rest ih =>
    intro i k hk hall
    have h0 := hall 0 (Nat.zero_le k)
    rw [Nat.add_zero] at h0
    obtain ⟨s, hs⟩ := Option.isSome_iff_exists.mp h0
    match k with
    | 0 => simp [fromHexGo, hs]
    | k' + 1 =>
      have e : ∀ j : Nat, i + 1 + j = i + (j + 1) := fun j => by omega
      have hall' : ∀ j, j ≤ k' →
          (strSlice input ((i + 1 + j) * 2) ((i + 1 + j) * 2 + 2)).isSome := by
        intro j hj
        rw [e j]
        exact hall (j + 1) (by omega)
      have hk' : k' < rest.length := by simp at hk; omega
      have hrec := ih (i + 1) k' hk' hall'
      rw [e k'] at hrec
      simp only [fromHexGo, hs, List.getD_cons_succ]
      exact hrec

theorem fromHexGo_getD_stopped (input : List Char) : ∀ (buf : List Nat) (i k : Nat),
    (∃ j, j ≤ k ∧ strSlice input ((i + j) * 2) ((i + j) * 2 + 2) = none) →
    (fromHexGo input i buf).getD k 0 = buf.getD k 0 := by
  intro buf
  induction buf with
  | nil => intro i k _; rfl
  | cons b rest ih =>
    intro i k h
    obtain ⟨j, hj, hnone⟩ := h
    cases hs : strSlice input (i * 2) (i * 2 + 2) with
    | none => simp [fromHexGo, hs]
    | some s =>
      match j with
      | 0 => rw [Nat.add_zero] at hnone; rw [hnone] at hs; exact Option.noConfusion hs
      | j' + 1 =>
        match k with
        | 0 => omega
        | k' + 1 =>
          have e : i + 1 + j' = i + (j' + 1) := by omega
          simp only [fromHexGo, hs, List.getD_cons_succ]
          exact ih (i + 1) k' ⟨j', by omega, by rw [e]; exact hnone⟩

/-! ## Claim theorems -/

/-- C1: the spec claims hex round-trip (encode then decode into a
same-length zero buffer, after the `0x` prefix) reproduces every byte
sequence of length 0-64.  The code violates this: `to_hex` formats with
`{b:x}` (minimal width, no zero padding), so the single byte `0x05`
encodes to `"0x5"`, whose post-prefix remainder `"5"` has no complete
2-character pair and decodes to `[0x00]`, not `[0x05]`.  `from_hex` reads
fixed 2-character pairs, so the encoder contradicts its own decoder: the
intent (the spec's round-trip property) requires `{b:02x}`. -/
theorem c1_hex_roundtrip_fails_on_small_byte :
    to_hex [5] = ['0', 'x', '5'] ∧
    from_hex ((to_hex [5]).drop 2) (List.replicate 1 0) = [0] ∧
    from_hex ((to_hex [5]).drop 2) (List.replicate 1 0) ≠ [5] := by
  decide

/-- C2 counterexample: the claim says a non-hex pair zeroes its byte AND
halts further decoding, and that a short string leaves the remainder of
ANY buffer at zero.  Both are false: on input `"zz41"` with buffer
`[0, 0]` the code writes `0` for the non-hex pair `"zz"` and then KEEPS
decoding, producing `[0, 0x41]` instead of the claimed `[0, 0]`; on the
empty input with buffer `[7]` the untouched remainder keeps its prior
value `7`, it is not set to zero. -/
theorem c2_from_hex_counterexample :
    (from_hex ['z', 'z', '4', '1'] [0, 0] = [0, 65] ∧
      from_hex ['z', 'z', '4', '1'] [0, 0] ≠ [0, 0]) ∧
    (from_hex [] [7] = [7] ∧ from_hex [] [7] ≠ [0]) := by
  decide

/-- C2 (amended): `from_hex` fills byte `i` of the buffer from the byte
range `2i..2i+2` of the input.  As long as every pair position up to `i`
yields an available slice, byte `i` is set to
`u8::from_str_radix(pair, 16).unwrap_or_default()` — a non-hex pair gives
`0` and decoding CONTINUES.  Decoding halts only at the first position
whose slice is unavailable (input shorter than `2i+2`, or a slice bound
not on a char boundary); from there on the buffer keeps its PRIOR values
(zero only when the buffer was zero-initialised). -/
theorem c2_from_hex_pairwise_fill (input : List Char) (buf : List Nat) :
    (from_hex input buf).length = buf.length ∧
    ∀ k, k < buf.length →
      ((∀ j, j ≤ k → (strSlice input (j * 2) (j * 2 + 2)).isSome) →
        (from_hex input buf).getD k 0 =
          (fromStrRadix16 ((strSlice input (k * 2) (k * 2 + 2)).getD [])).getD 0) ∧
      ((∃ j, j ≤ k ∧ strSlice input (j * 2) (j * 2 + 2) = none) →
        (from_hex input buf).getD k 0 = buf.getD k 0) := by
  refine ⟨fromHexGo_length input 0 buf, ?_⟩
  intro k hk
  constructor
  · intro hall
    have hd := fromHexGo_getD_decoded input buf 0 k hk
      (by intro j hj; simpa using hall j hj)
    simpa using hd
  · rintro ⟨j, hj, hnone⟩
    exact fromHexGo_getD_stopped input buf 0 k ⟨j, hj, by simpa using hnone⟩

/-- C2 witness: on input `"41"` with buffer `[9]`, byte 0 is decoded from
the pair at positions `0..2`. -/
theorem c2_from_hex_pairwise_fill_witness :
    (from_hex ['4', '1'] [9]).getD 0 0 =
      (fromStrRadix16 ((strSlice ['4', '1'] (0 * 2) (0 * 2 + 2)).getD [])).getD 0 :=
  ((c2_from_hex_pairwise_fill ['4', '1'] [9]).2 0 (by decide)).1 (by
    intro j hj
    have hj0 : j = 0 := Nat.le_zero.mp hj
    subst hj0
    decide)

/-- C10: `from_hex` is a total function of its two arguments (every Rust
operation it uses — `str::get`, `from_str_radix`, `unwrap_or_default` —
is non-panicking, so the embedding is an unconditional total function):
the result always has the buffer's length, and whenever the slice at a
pair position `i` is unavailable — in particular when byte position `2i`
or `2i+2` falls inside a multi-byte character — decoding has stopped at
or before `i` and every byte from position `i` on retains its prior
value. -/
theorem c10_from_hex_total_and_boundary_safe (input : List Char) (buf : List Nat) :
    (from_hex input buf).length = buf.length ∧
    ∀ i, strSlice input (i * 2) (i * 2 + 2) = none →
      (from_hex input buf).drop i = buf.drop i := by
  refine ⟨fromHexGo_length input 0 buf, ?_⟩
  intro i hnone
  exact fromHexGo_drop input buf 0 i (by simpa using hnone)

/-- C10 witness: `'€'` is a 3-byte character, so the pair slice `0..2`
falls inside it; the whole buffer `[7, 8]` keeps its prior values. -/
theorem c10_from_hex_boundary_witness :
    (from_hex ['€'] [7, 8]).length = 2 ∧ (from_hex ['€'] [7, 8]).drop 0 = [7, 8] :=
  ⟨(c10_from_hex_total_and_boundary_safe ['€'] [7, 8]).1,
   (c10_from_hex_total_and_boundary_safe ['€'] [7, 8]).2 0 (by decide)⟩

/-- C3 counterexample: the claim says that whenever the provider registry
(`window.injectedWeb3`) does not contain the entry for the target
extension (`"polkadot-js"`), `connect` fails with `ExtensionUnavailable`.
But when the registry object is PRESENT and merely lacks the
`"polkadot-js"` key, reading `"polkadot-js"` yields `undefined` (not an
error), and the subsequent `get!(^ &pjs, "enable")` hits `Reflect::get`
on `undefined`, whose `Err` makes the `get!` macro panic — `connect` does
not return `ExtensionUnavailable` there. -/
theorem c3_connect_counterexample :
    connect (some (.obj [])) = .panicked ∧
    connect (some (.obj [])) ≠ .err .ExtensionUnavailable ∧
    (∀ s : PjsExtension, connect (some (.obj [])) ≠ .ok s) :=
  ⟨rfl, fun h => ConnectResult.noConfusion h, fun _ h => ConnectResult.noConfusion h⟩

/-- C3 (amended): `ExtensionUnavailable` is returned exactly when the
registry global `injectedWeb3` itself is absent from the window; when the
registry object is present but does not contain the `"polkadot-js"`
entry, `connect` panics instead of returning an error.  In both cases no
session object is produced. -/
theorem c3_connect_registry_behavior :
    (connect none = .err .ExtensionUnavailable ∧
      ∀ s : PjsExtension, connect none ≠ .ok s) ∧
    ∀ fields : List (String × JsVal), fields.lookup "polkadot-js" = none →
      connect (some (.obj fields)) = .panicked ∧
      ∀ s : PjsExtension, connect (some (.obj fields)) ≠ .ok s := by
  refine ⟨⟨rfl, fun _ h => ConnectResult.noConfusion h⟩, ?_⟩
  intro fields hf
  have hp : connect (some (.obj fields)) = .panicked := by
    simp [connect, reflectGet, hf]
  exact ⟨hp, fun _ h => by rw [hp] at h; exact ConnectResult.noConfusion h⟩

/-- C3 witness: a registry object carrying some other extension but not
`"polkadot-js"`. -/
theorem c3_connect_registry_witness :
    connect (some (.obj [("other-wallet", JsVal.undefined)])) = .panicked ∧
    ∀ s : PjsExtension, connect (some (.obj [("other-wallet", JsVal.undefined)])) ≠ .ok s :=
  c3_connect_registry_behavior.2 [("other-wallet", JsVal.undefined)] rfl

/-- C4: `select_account` never fails (it is a total state update touching
only `selected`): on a non-empty account list of length `n` the requested
index `idx` (a `u8`, hence `idx < 256`) produces the effective selection
`min idx (n - 1)` — the extra clamp against 255 in the code coincides
with `n - 1` when `n - 1 ≤ 255` and is itself overridden by `idx ≤ 255`
otherwise; on an empty list the selection becomes absent whatever `idx`
was. -/
theorem c4_select_account_clamps (s : PjsExtension) (idx : Nat) (hidx : idx < 256) :
    (s.accounts.length ≠ 0 →
      (select_account s idx).selected = some (min idx (s.accounts.length - 1))) ∧
    (s.accounts.length = 0 → (select_account s idx).selected = none) ∧
    (select_account s idx).accounts = s.accounts ∧
    (select_account s idx).pjs = s.pjs := by
  refine ⟨?_, ?_, rfl, rfl⟩
  · intro hne
    have h1 : checkedSub s.accounts.length 1 = some (s.accounts.length - 1) := by
      unfold checkedSub
      rw [if_neg (by omega)]
    have hsel0 : (select_account s idx).selected =
        (checkedSub s.accounts.length 1).map fun i => min idx (min i 255) := rfl
    rw [hsel0, h1]
    show some (min idx (min (s.accounts.length - 1) 255)) =
      some (min idx (s.accounts.length - 1))
    congr 1
    rcases le_total (s.accounts.length - 1) 255 with h | h
    · rw [min_eq_left h]
    · rw [min_eq_right h, min_eq_left (by omega : idx ≤ 255),
        min_eq_left (by omega : idx ≤ s.accounts.length - 1)]
  · intro h0
    simp [select_account, checkedSub, h0]

/-- C4 witness: a one-account list clamps the request `5` to `min 5 0`. -/
theorem c4_select_account_clamps_witness :
    (select_account ⟨JsVal.undefined, [⟨"a", "b", Network.Generic⟩], none⟩ 5).selected =
      some (min 5 0) :=
  (c4_select_account_clamps ⟨JsVal.undefined, [⟨"a", "b", Network.Generic⟩], none⟩ 5
    (by decide)).1 (by decide)

/-- C9: because the requested index is 8-bit and the code additionally
clamps against `u8::MAX`, on an account list longer than 256 the
selection produced by `select_account` is always strictly below 256, so
no account at position 256 or beyond can ever become the selected
account through `select_account`. -/
theorem c9_select_account_caps_at_255 (s : PjsExtension) (idx : Nat)
    (_hidx : idx < 256) (hlen : 256 < s.accounts.length) :
    ∃ v, (select_account s idx).selected = some v ∧ v < 256 ∧
      ∀ j, 256 ≤ j → (select_account s idx).selected ≠ some j := by
  have h1 : checkedSub s.accounts.length 1 = some (s.accounts.length - 1) := by
    unfold checkedSub
    rw [if_neg (by omega)]
  have hsel0 : (select_account s idx).selected =
      (checkedSub s.accounts.length 1).map fun i => min idx (min i 255) := rfl
  have hsel : (select_account s idx).selected =
      some (min idx (min (s.accounts.length - 1) 255)) := by
    rw [hsel0, h1]
    rfl
  have hlt : min idx (min (s.accounts.length - 1) 255) < 256 :=
    lt_of_le_of_lt (le_trans (min_le_right _ _) (min_le_right _ _)) (by omega)
  refine ⟨min idx (min (s.accounts.length - 1) 255), hsel, hlt, ?_⟩
  intro j hj hcontra
  rw [hsel] at hcontra
  have hji := Option.some.inj hcontra
  omega

/-- C9 witness: 300 accounts, request 7. -/
theorem c9_select_account_caps_at_255_witness :
    ∃ v, (select_account
        ⟨JsVal.undefined, List.replicate 300 ⟨"a", "b", Network.Generic⟩, none⟩ 7).selected =
        some v ∧ v < 256 ∧
      ∀ j, 256 ≤ j →
        (select_account
          ⟨JsVal.undefined, List.replicate 300 ⟨"a", "b", Network.Generic⟩, none⟩ 7).selected ≠
          some j :=
  c9_select_account_caps_at_255 _ 7 (by decide) (by
    show 256 < (List.replicate 300 (⟨"a", "b", Network.Generic⟩ : Account)).length
    rw [List.length_replicate]
    decide)

/-- C5: on the success path of `fetch_accounts` the account list is
replaced by the parsed entries (`mapM parseAccount? = some accs` is the
"no panic while parsing" success condition); when the new list is
non-empty the selection is reset to index 0, and when it is empty the
prior selection is preserved unchanged (the provider handle is untouched
in both cases). -/
theorem c5_fetch_accounts_selection (s : PjsExtension) (arr : List JsVal)
    (accs : List Account) (h : parseAccounts? arr = some accs) :
    (accs ≠ [] → fetch_accounts s (.resolved arr) =
      .ok { pjs := s.pjs, accounts := accs, selected := some 0 }) ∧
    (accs = [] → fetch_accounts s (.resolved arr) =
      .ok { pjs := s.pjs, accounts := [], selected := s.selected }) := by
  constructor
  · intro hne
    simp [fetch_accounts, h, hne]
  · intro he
    subst he
    simp [fetch_accounts, h]

/-- C5 witness: fetching one well-formed Kusama account over a session
with a stale selection resets the selection to 0. -/
theorem c5_fetch_accounts_selection_witness :
    fetch_accounts ⟨JsVal.undefined, [], some 3⟩
      (.resolved [JsVal.obj
        [("name", .str "Alice"), ("address", .str "5G"), ("genesisHash", .str KSM)]]) =
      .ok ⟨JsVal.undefined, [⟨"Alice", "5G", Network.Kusama⟩], some 0⟩ :=
  (c5_fetch_accounts_selection ⟨JsVal.undefined, [], some 3⟩
    [JsVal.obj [("name", .str "Alice"), ("address", .str "5G"), ("genesisHash", .str KSM)]]
    [⟨"Alice", "5G", Network.Kusama⟩] rfl).1 (by simp)

/-- C6: when the provider's account-listing promise rejects,
`fetch_accounts` returns `Err(FailedFetchingAccounts)` with the session
state — account list, selection, and provider handle — exactly as it was
(the early return precedes every mutation). -/
theorem c6_fetch_accounts_rejection_atomic (s : PjsExtension) :
    fetch_accounts s .rejected = .err .FailedFetchingAccounts s :=
  rfl

/-- C7: the network classifier is the total function `networkOfJs` on
arbitrary JS values: each of the three genesis-hash constants maps to its
tag, any other string maps to `Generic`, and any non-string value
(undefined, null, objects, functions — `as_string()` returns `None`)
maps to `Generic`.  Determinism is immediate: it is a function of its
argument alone. -/
theorem c7_network_classification :
    networkOfJs (.str KSM) = .Kusama ∧
    networkOfJs (.str DOT) = .Polkadot ∧
    networkOfJs (.str KREIVO) = .Kreivo ∧
    (∀ s : String, s ≠ KSM → s ≠ DOT → s ≠ KREIVO → networkOfJs (.str s) = .Generic) ∧
    (∀ v : JsVal, jsAsString? v = none → networkOfJs v = .Generic) := by
  refine ⟨by decide, by decide, by decide, ?_, ?_⟩
  · intro s h1 h2 h3
    simp [networkOfJs, jsAsString?, h1, h2, h3]
  · intro v hv
    simp [networkOfJs, hv]

/-- C7 witness: an unknown hash string and a null value both classify as
`Generic`. -/
theorem c7_network_classification_witness :
    networkOfJs (.str "0xdeadbeef") = .Generic ∧ networkOfJs JsVal.null = .Generic :=
  ⟨c7_network_classification.2.2.2.1 "0xdeadbeef" (by decide) (by decide) (by decide),
   c7_network_classification.2.2.2.2 JsVal.null rfl⟩

/-- C8: `current_account` fails with `NoAccountSelected` exactly when the
selection is absent, fails with `NoAccounts` exactly when a selection
index exists but is out of range for the current account list, and
returns the account at the selected index whenever that index is
valid. -/
theorem c8_current_account_cases (s : PjsExtension) :
    (current_account s = .error .NoAccountSelected ↔ s.selected = none) ∧
    (current_account s = .error .NoAccounts ↔
      ∃ i, s.selected = some i ∧ s.accounts[i]? = none) ∧
    (∀ i a, s.selected = some i → s.accounts[i]? = some a →
      current_account s = .ok a) := by
  obtain ⟨pjs, accounts, selected⟩ := s
  cases selected with
  | none =>
    refine ⟨by simp [current_account], by simp [current_account], ?_⟩
    intro i a hi _
    exact Option.noConfusion hi
  | some i =>
    cases hacc : accounts[i]? with
    | none =>
      refine ⟨by simp [current_account, hacc],
        by
          simp [current_account, hacc]
          exact List.getElem?_eq_none_iff.mp hacc, ?_⟩
      intro i' a hi' ha'
      obtain rfl : i = i' := Option.some.inj hi'
      rw [hacc] at ha'
      exact Option.noConfusion ha'
    | some a =>
      refine ⟨by simp [current_account, hacc],
        by
          simp [current_account, hacc]
          obtain ⟨hlt, -⟩ := List.getElem?_eq_some_iff.mp hacc
          exact hlt, ?_⟩
      intro i' a' hi' ha'
      obtain rfl : i = i' := Option.some.inj hi'
      rw [hacc] at ha'
      obtain rfl : a = a' := Option.some.inj ha'
      simp [current_account, hacc]

/-- C8 witness: with accounts `[Alice]` and selection 0 the selected
account is returned; with selection 5 the stale index fails with
`NoAccounts`. -/
theorem c8_current_account_cases_witness :
    current_account ⟨JsVal.undefined, [⟨"Alice", "5G", Network.Kusama⟩], some 0⟩ =
      .ok ⟨"Alice", "5G", Network.Kusama⟩ ∧
    current_account ⟨JsVal.undefined, [⟨"Alice", "5G", Network.Kusama⟩], some 5⟩ =
      .error .NoAccounts :=
  ⟨(c8_current_account_cases ⟨JsVal.undefined, [⟨"Alice", "5G", Network.Kusama⟩], some 0⟩).2.2
      0 ⟨"Alice", "5G", Network.Kusama⟩ rfl rfl,
   (c8_current_account_cases ⟨JsVal.undefined, [⟨"Alice", "5G", Network.Kusama⟩], some 5⟩).2.1.mpr
      ⟨5, rfl, rfl⟩⟩

end Pjs
